import Mathlib

/-!
Verification of the workflow-composition and tool-function behaviour of the
GenAI course scripts (day_1b_agent_architectures.py, day_2a_agent_tools_vinoy.py,
day_3a_agent_sessions_vinoy.py).

The pure tool functions (`get_fee_for_payment_method`, `get_exchange_rate`,
`save_userinfo`, `retrieve_userinfo`, `exit_loop`) and the retry configuration
are embedded directly from the Python source.  The Sequential / Parallel / Loop
composition engine lives in the external agent framework (google.adk), so it is
modelled from the specification text; the in-repo worker configurations
(output keys, sub-agent lists, iteration cap) are taken from the source.
-/

/-- A Python value as it appears in the tool dictionaries of these scripts:
either a string or a number (modelled as a rational). -/
inductive PyVal where
  | str (s : String)
  | num (q : Rat)
  deriving DecidableEq

/-- A Python dict with string keys, modelled as an ordered association list
(insertion order is significant in Python dicts). -/
abbrev PyDict := List (String × PyVal)

/-- The shared key-value context / session state of a run. -/
abbrev Ctx := List (String × PyVal)

/-- Lookup in an ordered association list; models Python `d.get(k)`. -/
def ctxGet {α : Type} : List (String × α) → String → Option α
  | [], _ => none
  | (k, v) :: rest, key => if k = key then some v else ctxGet rest key

/-- Update in an ordered association list; models Python `d[k] = v`
(replace in place if the key exists, append otherwise). -/
def ctxSet {α : Type} : List (String × α) → String → α → List (String × α)
  | [], key, v => [(key, v)]
  | (k, w) :: rest, key, v =>
    if k = key then (key, v) :: rest else (k, w) :: ctxSet rest key v

/-- Lowercase a single character; models Python `str.lower` on the ASCII
range (the only range exercised by these scripts). -/
def pyLowerChar (c : Char) : Char :=
  if 65 ≤ c.toNat ∧ c.toNat ≤ 90 then Char.ofNat (c.toNat + 32) else c

/-- Lowercase a string; models Python `str.lower` on the ASCII range. -/
def pyLower (s : String) : String :=
  ⟨s.data.map pyLowerChar⟩

/-- The ASCII single-quote character as a one-character string. -/
def squote : String := String.singleton (Char.ofNat 39)

/-- The fee table of `get_fee_for_payment_method`
(src/day_2a_agent_tools_vinoy.py, lines 51-55). -/
def fee_database : List (String × Rat) :=
  [("platinum credit card", 0.02),
   ("gold debit card", 0.035),
   ("bank transfer", 0.01)]

/-- Embeds `get_fee_for_payment_method`
(src/day_2a_agent_tools_vinoy.py, lines 42-64). -/
def get_fee_for_payment_method (method : String) : PyDict :=
  match ctxGet fee_database (pyLower method) with
  | some fee => [("status", .str "success"), ("fee_percentage", .num fee)]
  | none =>
    [("status", .str "error"),
     ("error_message",
      .str ("Payment method " ++ squote ++ method ++ squote ++ " not found"))]

/-- The nested exchange-rate table of `get_exchange_rate`
(src/day_2a_agent_tools_vinoy.py, lines 77-83). -/
def rate_database : List (String × List (String × Rat)) :=
  [("usd", [("eur", 0.93), ("jpy", 157.50), ("inr", 83.58)])]

/-- The lookup expression `rate_database.get(base, \x7b\x7d).get(target)`
(src/day_2a_agent_tools_vinoy.py, line 88). -/
def lookup_rate (base target : String) : Option Rat :=
  ctxGet (match ctxGet rate_database base with | some d => d | none => []) target

/-- Embeds `get_exchange_rate` (src/day_2a_agent_tools_vinoy.py, lines 67-95). -/
def get_exchange_rate (base_currency target_currency : String) : PyDict :=
  match lookup_rate (pyLower base_currency) (pyLower target_currency) with
  | some rate => [("status", .str "success"), ("rate", .num rate)]
  | none =>
    [("status", .str "error"),
     ("error_message",
      .str ("Unsupported currency pair: " ++ base_currency ++ "/" ++ target_currency))]

example : get_fee_for_payment_method "Platinum Credit Card" =
    [("status", .str "success"), ("fee_percentage", .num 0.02)] := rfl

example : get_exchange_rate "USD" "EUR" =
    [("status", .str "success"), ("rate", .num 0.93)] := rfl

example : get_exchange_rate "USD" "GBP" =
    [("status", .str "error"),
     ("error_message", .str "Unsupported currency pair: USD/GBP")] := rfl

/-- Embeds `save_userinfo` (src/day_3a_agent_sessions_vinoy.py, lines 109-113):
writes the two user-scoped state keys and returns a success dict.  The session
state is passed and returned explicitly. -/
def save_userinfo (state : Ctx) (user_name country : String) : Ctx × PyDict :=
  let s1 := ctxSet state "user:name" (.str user_name)
  let s2 := ctxSet s1 "user:country" (.str country)
  (s2, [("status", .str "success")])

/-- Embeds `retrieve_userinfo` (src/day_3a_agent_sessions_vinoy.py,
lines 115-119): reads the two user-scoped state keys with placeholder
defaults.  The function performs no writes, so the state component of the
result is the input state. -/
def retrieve_userinfo (state : Ctx) : Ctx × PyDict :=
  let user_name :=
    match ctxGet state "user:name" with
    | some v => v
    | none => .str "Username not found"
  let country :=
    match ctxGet state "user:country" with
    | some v => v
    | none => .str "Country not found"
  (state, [("status", .str "success"), ("user_name", user_name), ("country", country)])

/-- The retry/backoff configuration record handed to the external model
runtime (google.genai `types.HttpRetryOptions`); the repository only ever
constructs it and passes it on. -/
structure HttpRetryOptions where
  attempts : Nat
  exp_base : Nat
  initial_delay : Nat
  http_status_codes : List Nat
  deriving DecidableEq

/-- The retry configuration built in src/day_2a_agent_tools_vinoy.py,
lines 123-128. -/
def day2a_retry_config : HttpRetryOptions :=
  { attempts := 5, exp_base := 7, initial_delay := 1,
    http_status_codes := [429, 500, 503, 504] }

/-- The retry configuration built in src/day_3a_agent_sessions_vinoy.py,
lines 271-273. -/
def day3a_retry_config : HttpRetryOptions :=
  { attempts := 5, exp_base := 7, initial_delay := 1,
    http_status_codes := [429, 500, 503, 504] }

/-- The configuration a `Gemini(...)` model constructor call receives: the
model name and the retry options, forwarded unchanged to the runtime. -/
structure GeminiModel where
  model : String
  retry_options : HttpRetryOptions
  deriving DecidableEq

/-- `MODEL_NAME` constant of src/day_3a_agent_sessions_vinoy.py, line 49. -/
def MODEL_NAME : String := "gemini-2.5-flash-lite"

/-- The model configuration of `currency_agent`
(src/day_2a_agent_tools_vinoy.py, line 134). -/
def currency_agent_model : GeminiModel :=
  { model := "gemini-2.5-flash-lite", retry_options := day2a_retry_config }

/-- The model configuration of `calculation_agent`
(src/day_2a_agent_tools_vinoy.py, line 157). -/
def calculation_agent_model : GeminiModel :=
  { model := "gemini-2.5-flash-lite", retry_options := day2a_retry_config }

/-- The model configuration of `enhanced_currency_agent`
(src/day_2a_agent_tools_vinoy.py, line 169). -/
def enhanced_currency_agent_model : GeminiModel :=
  { model := "gemini-2.5-flash-lite", retry_options := day2a_retry_config }

/-- The model configuration shared by every agent of
src/day_3a_agent_sessions_vinoy.py (lines 128, 148, 195, 242):
`Gemini(model=MODEL_NAME, retry_options=retry_config)`. -/
def day3a_chatbot_model : GeminiModel :=
  { model := MODEL_NAME, retry_options := day3a_retry_config }

/-- Modelled from the spec: a Worker is an opaque unit that accepts the
key-value context and produces a value written back into the context under
its designated output key (spec sections 2 and 3, "Worker descriptor"); the
text-generation step deciding the value is an opaque oracle, modelled as the
function field. -/
structure Worker where
  name : String
  output_key : String
  transform : Ctx → PyVal

/-- Modelled from the spec: the Sequential Composer (spec section 4.1)
invokes each worker in list order, passing the current context, and
propagates each worker's output into the context under its designated key. -/
def runSeq : List Worker → Ctx → Ctx
  | [], ctx => ctx
  | w :: ws, ctx => runSeq ws (ctxSet ctx w.output_key (w.transform ctx))

/-- The context visible to the worker at position `i` of a sequential
composition started on `ctx`: the context after the first `i` workers ran. -/
def seenCtx (ws : List Worker) (ctx : Ctx) (i : Nat) : Ctx :=
  runSeq (ws.take i) ctx

/-- Modelled from the spec: the error taxonomy entry for a malformed
composition (spec section 7(a)), raised on colliding output keys in a
parallel merge. -/
inductive AdkError where
  | ConfigurationError
  deriving DecidableEq

/-- The individual named outputs of a parallel step: every worker computes
its value on the same isolated snapshot of the input context (spec
section 4.2, isolation). -/
def namedOutputs (ws : List Worker) (ctx : Ctx) : Ctx :=
  ws.map (fun w => (w.output_key, w.transform ctx))

/-- Merge a list of named outputs into a context, one write after another. -/
def mergeOutputs (ctx : Ctx) (outs : Ctx) : Ctx :=
  outs.foldl (fun acc p => ctxSet acc p.1 p.2) ctx

/-- The merged context a parallel step produces when its output keys do not
collide: the input context extended with every worker's named output. -/
def parallelMerged (ws : List Worker) (ctx : Ctx) : Ctx :=
  mergeOutputs ctx (namedOutputs ws ctx)

/-- Modelled from the spec: the Parallel Composer (spec section 4.2) runs all
workers against an identical isolated snapshot of the context and merges
their named outputs after the join; key collisions are a configuration
error, not silently resolved. -/
def runParallel (ws : List Worker) (ctx : Ctx) : Except AdkError Ctx :=
  if (ws.map Worker.output_key).Nodup then
    .ok (parallelMerged ws ctx)
  else
    .error .ConfigurationError

/-- Modelled from the spec: a worker in a loop body may additionally raise
the explicit exit signal (spec section 3, "Loop state": a termination flag
settable by any worker in the loop body). -/
structure LoopWorker where
  name : String
  output_key : String
  transform : Ctx → PyVal × Bool

/-- Modelled from the spec: the states of the Loop Composer state machine
(spec section 4.3). -/
inductive LoopState where
  | RUNNING
  | EXIT
  | CAP_REACHED
  deriving DecidableEq

/-- Modelled from the spec: both terminal states of the Loop Composer end
the loop successfully; hitting the cap is not a failure (spec section 4.3). -/
def LoopState.terminatedSuccessfully : LoopState → Bool
  | .RUNNING => false
  | .EXIT => true
  | .CAP_REACHED => true

/-- Run the fixed inner sequence of a loop body once; if a worker raises the
exit signal the iteration stops there and the signal is reported (spec
section 4.3: "if any inner worker raises an explicit exit signal,
transition to EXIT and stop"). -/
def runIterOnce : List LoopWorker → Ctx → Ctx × Bool
  | [], ctx => (ctx, false)
  | w :: ws, ctx =>
    let r := w.transform ctx
    let ctx1 := ctxSet ctx w.output_key r.1
    if r.2 then (ctx1, true) else runIterOnce ws ctx1

/-- Modelled from the spec: the Loop Composer transition function (spec
section 4.3), counting down the remaining iterations allowed by the cap and
counting up the iterations performed. -/
def runLoopAux (ws : List LoopWorker) : Nat → Ctx → Nat → Ctx × LoopState × Nat
  | 0, ctx, done => (ctx, .CAP_REACHED, done)
  | remaining + 1, ctx, done =>
    let r := runIterOnce ws ctx
    if r.2 then (r.1, .EXIT, done + 1) else runLoopAux ws remaining r.1 (done + 1)

/-- Modelled from the spec: run a Loop composition with iteration cap `cap`
starting at iteration 0 in state RUNNING; the result is the final context,
the terminal state, and the number of iterations performed. -/
def runLoop (ws : List LoopWorker) (cap : Nat) (ctx : Ctx) : Ctx × LoopState × Nat :=
  runLoopAux ws cap ctx 0

/-- The context after `k` completed (non-exiting) iterations of the loop
body on initial context `ctx`. -/
def iterCtx (ws : List LoopWorker) (ctx : Ctx) : Nat → Ctx
  | 0 => ctx
  | k + 1 => (runIterOnce ws (iterCtx ws ctx k)).1

/-- Embeds `exit_loop` (src/day_1b_agent_architectures.py, lines 203-205):
the function tool whose invocation signals loop termination; its return
value is this dict. -/
def exit_loop : PyDict :=
  [("status", .str "approved"),
   ("message", .str "Story approved. Exiting refinement loop.")]

/-- The `outline_agent` worker configuration
(src/day_1b_agent_architectures.py, lines 88-97): writes `blog_outline`. -/
def outline_agent (oracle : Ctx → PyVal) : Worker :=
  { name := "OutlineAgent", output_key := "blog_outline", transform := oracle }

/-- The `writer_agent` worker configuration
(src/day_1b_agent_architectures.py, lines 99-105): writes `blog_draft`. -/
def writer_agent (oracle : Ctx → PyVal) : Worker :=
  { name := "WriterAgent", output_key := "blog_draft", transform := oracle }

/-- The `editor_agent` worker configuration
(src/day_1b_agent_architectures.py, lines 107-113): writes `final_blog`. -/
def editor_agent (oracle : Ctx → PyVal) : Worker :=
  { name := "EditorAgent", output_key := "final_blog", transform := oracle }

/-- The `BlogPipeline` sequential composition
(src/day_1b_agent_architectures.py, lines 115-118). -/
def blog_pipeline (f1 f2 f3 : Ctx → PyVal) : List Worker :=
  [outline_agent f1, writer_agent f2, editor_agent f3]

/-- The `TechResearcher` worker configuration
(src/day_1b_agent_architectures.py, lines 129-135): writes `tech_research`. -/
def tech_researcher (oracle : Ctx → PyVal) : Worker :=
  { name := "TechResearcher", output_key := "tech_research", transform := oracle }

/-- The `HealthResearcher` worker configuration
(src/day_1b_agent_architectures.py, lines 137-143): writes `health_research`. -/
def health_researcher (oracle : Ctx → PyVal) : Worker :=
  { name := "HealthResearcher", output_key := "health_research", transform := oracle }

/-- The `FinanceResearcher` worker configuration
(src/day_1b_agent_architectures.py, lines 145-151): writes `finance_research`. -/
def finance_researcher (oracle : Ctx → PyVal) : Worker :=
  { name := "FinanceResearcher", output_key := "finance_research", transform := oracle }

/-- The `ParallelResearchTeam` parallel composition
(src/day_1b_agent_architectures.py, lines 164-167). -/
def parallel_research_team (f1 f2 f3 : Ctx → PyVal) : List Worker :=
  [tech_researcher f1, health_researcher f2, finance_researcher f3]

/-- The `CriticAgent` loop-body worker configuration
(src/day_1b_agent_architectures.py, lines 191-201): writes `critique`. -/
def critic_agent (oracle : Ctx → PyVal × Bool) : LoopWorker :=
  { name := "CriticAgent", output_key := "critique", transform := oracle }

/-- The `RefinerAgent` loop-body worker configuration
(src/day_1b_agent_architectures.py, lines 207-219): writes `current_story`
and is the worker that may call `exit_loop`. -/
def refiner_agent (oracle : Ctx → PyVal × Bool) : LoopWorker :=
  { name := "RefinerAgent", output_key := "current_story", transform := oracle }

/-- The `StoryRefinementLoop` body
(src/day_1b_agent_architectures.py, lines 221-225). -/
def story_refinement_loop (f1 f2 : Ctx → PyVal × Bool) : List LoopWorker :=
  [critic_agent f1, refiner_agent f2]

/-- The `max_iterations=2` cap of `StoryRefinementLoop`
(src/day_1b_agent_architectures.py, line 224). -/
def story_refinement_loop_max_iterations : Nat := 2

theorem ctxGet_ctxSet_self {α : Type} (c : List (String × α)) (k : String) (v : α) :
    ctxGet (ctxSet c k v) k = some v := by
  induction c with
  | nil => simp [ctxSet, ctxGet]
  | cons p rest ih =>
    obtain ⟨pk, pv⟩ := p
    by_cases h : pk = k
    · simp [ctxSet, h, ctxGet]
    · simp [ctxSet, h, ctxGet, ih]

theorem ctxGet_ctxSet_ne {α : Type} (c : List (String × α)) {k key : String} (v : α)
    (h : k ≠ key) : ctxGet (ctxSet c k v) key = ctxGet c key := by
  induction c with
  | nil => simp [ctxSet, ctxGet, h]
  | cons p rest ih =>
    obtain ⟨pk, pv⟩ := p
    by_cases hp : pk = k
    · subst hp
      simp [ctxSet, ctxGet, h]
    · simp [ctxSet, hp, ctxGet, ih]

theorem ctxGet_eq_none_of_not_mem {α : Type} {k : String} :
    ∀ {c : List (String × α)}, k ∉ c.map Prod.fst → ctxGet c k = none
  | [], _ => rfl
  | (pk, _) :: rest, h => by
    simp only [List.map_cons, List.mem_cons, not_or] at h
    simp only [ctxGet]
    rw [if_neg fun hh => h.1 hh.symm]
    exact ctxGet_eq_none_of_not_mem h.2

theorem ctxSet_eq_append {α : Type} {k : String} :
    ∀ {c : List (String × α)}, k ∉ c.map Prod.fst → ∀ v, ctxSet c k v = c ++ [(k, v)]
  | [], _, _ => rfl
  | (pk, pv) :: rest, h, v => by
    simp only [List.map_cons, List.mem_cons, not_or] at h
    simp only [ctxSet]
    rw [if_neg fun hh => h.1 hh.symm]
    rw [ctxSet_eq_append h.2]
    rfl

theorem ctxGet_mergeOutputs (k : String) :
    ∀ (outs : Ctx), (outs.map Prod.fst).Nodup → ∀ (ctx : Ctx),
      ctxGet (mergeOutputs ctx outs) k =
        match ctxGet outs k with
        | some v => some v
        | none => ctxGet ctx k
  | [], _, ctx => by simp [mergeOutputs, ctxGet]
  | (pk, pv) :: rest, hnd, ctx => by
    simp only [List.map_cons, List.nodup_cons] at hnd
    have hstep : mergeOutputs ctx ((pk, pv) :: rest) = mergeOutputs (ctxSet ctx pk pv) rest := rfl
    rw [hstep, ctxGet_mergeOutputs k rest hnd.2]
    by_cases h : pk = k
    · subst h
      rw [ctxGet_eq_none_of_not_mem hnd.1]
      simp [ctxGet, ctxGet_ctxSet_self]
    · simp only [ctxGet, if_neg h]
      cases ctxGet rest k with
      | some v => rfl
      | none => simp [ctxGet_ctxSet_ne _ _ h]

theorem ctxGet_perm (k : String) {l1 l2 : Ctx} (hp : l1.Perm l2) :
    (l1.map Prod.fst).Nodup → ctxGet l1 k = ctxGet l2 k := by
  induction hp with
  | nil => intro _; rfl
  | cons p _ ih =>
    intro hnd
    simp only [List.map_cons, List.nodup_cons] at hnd
    obtain ⟨pk, pv⟩ := p
    by_cases h : pk = k
    · simp [ctxGet, h]
    · simp [ctxGet, h, ih hnd.2]
  | swap p q l =>
    intro hnd
    simp only [List.map_cons, List.nodup_cons, List.mem_cons, not_or] at hnd
    obtain ⟨pk, pv⟩ := p
    obtain ⟨qk, qv⟩ := q
    by_cases h1 : qk = k <;> by_cases h2 : pk = k
    · exact absurd (h1.trans h2.symm) hnd.1.1
    · simp [ctxGet, h1, h2]
    · simp [ctxGet, h1, h2]
    · simp [ctxGet, h1, h2]
  | trans h1 _ ih1 ih2 =>
    intro hnd
    have hnd2 := ((h1.map Prod.fst).nodup_iff).mp hnd
    exact (ih1 hnd).trans (ih2 hnd2)

theorem pyLowerChar_toNat_of_upper {c : Char} (h : 65 ≤ c.toNat ∧ c.toNat ≤ 90) :
    (pyLowerChar c).toNat = c.toNat + 32 := by
  have hv : (c.toNat + 32).isValidChar := Or.inl (by omega)
  rw [pyLowerChar, if_pos h, Char.ofNat, dif_pos hv]
  rfl

theorem pyLowerChar_of_not_upper {c : Char} (h : ¬(65 ≤ c.toNat ∧ c.toNat ≤ 90)) :
    pyLowerChar c = c := by
  rw [pyLowerChar, if_neg h]

theorem pyLowerChar_idem (c : Char) : pyLowerChar (pyLowerChar c) = pyLowerChar c := by
  by_cases h : 65 ≤ c.toNat ∧ c.toNat ≤ 90
  · have ht := pyLowerChar_toNat_of_upper h
    exact pyLowerChar_of_not_upper (by rw [ht]; omega)
  · rw [pyLowerChar_of_not_upper h]
    exact pyLowerChar_of_not_upper h

theorem pyLower_idem (s : String) : pyLower (pyLower s) = pyLower s := by
  show String.mk ((s.data.map pyLowerChar).map pyLowerChar) = String.mk (s.data.map pyLowerChar)
  rw [List.map_map]
  exact congrArg String.mk (List.map_congr_left fun a _ => pyLowerChar_idem a)

theorem append_length_pos {s : String} (h : 0 < s.length) (t : String) :
    0 < (t ++ s).length := by
  rw [String.length_append]
  omega

/-- Claim C1: each function-worker tool, on an unrecognized input
(an unknown payment method for `get_fee_for_payment_method`, an unsupported
currency pair for `get_exchange_rate`), returns a structured dict with
status "error" and a nonempty human-readable error_message; being a total
Lean function, it raises no exception on any input string. -/
theorem claim_C1 :
    (∀ method : String, ctxGet fee_database (pyLower method) = none →
      ∃ msg, get_fee_for_payment_method method =
        [("status", .str "error"), ("error_message", .str msg)] ∧ msg ≠ "") ∧
    (∀ base_currency target_currency : String,
      lookup_rate (pyLower base_currency) (pyLower target_currency) = none →
      ∃ msg, get_exchange_rate base_currency target_currency =
        [("status", .str "error"), ("error_message", .str msg)] ∧ msg ≠ "") := by
  constructor
  · intro method h
    refine ⟨"Payment method " ++ squote ++ method ++ squote ++ " not found",
      by simp [get_fee_for_payment_method, h], ?_⟩
    intro he
    have hl := congrArg String.length he
    rw [String.length_append] at hl
    have h10 : (" not found" : String).length = 10 := rfl
    have h0 : ("" : String).length = 0 := rfl
    omega
  · intro base_currency target_currency h
    refine ⟨"Unsupported currency pair: " ++ base_currency ++ "/" ++ target_currency,
      by simp [get_exchange_rate, h], ?_⟩
    intro he
    have hl := congrArg String.length he
    rw [String.length_append, String.length_append, String.length_append] at hl
    have h27 : ("Unsupported currency pair: " : String).length = 27 := rfl
    have h1 : ("/" : String).length = 1 := rfl
    have h0 : ("" : String).length = 0 := rfl
    omega

/-- Closed witness for claim C1: the error branches at the concrete
unrecognized inputs "space credits" and USD/GBP. -/
theorem claim_C1_witness :
    (∃ msg, get_fee_for_payment_method "space credits" =
      [("status", .str "error"), ("error_message", .str msg)] ∧ msg ≠ "") ∧
    (∃ msg, get_exchange_rate "USD" "GBP" =
      [("status", .str "error"), ("error_message", .str msg)] ∧ msg ≠ "") :=
  ⟨claim_C1.1 "space credits" rfl, claim_C1.2 "USD" "GBP" rfl⟩

/-- Claim C2: both tool functions are deterministic total functions whose
result is either the success dict carrying the fixed table entry for the
lowercased input, or the error dict carrying an error_message; there is no
third outcome.  (Determinism and totality hold by construction of the
embedding: both are plain Lean functions.) -/
theorem claim_C2 :
    (∀ method : String,
      (∃ fee, ctxGet fee_database (pyLower method) = some fee ∧
        get_fee_for_payment_method method =
          [("status", .str "success"), ("fee_percentage", .num fee)]) ∨
      (ctxGet fee_database (pyLower method) = none ∧
        ∃ msg, get_fee_for_payment_method method =
          [("status", .str "error"), ("error_message", .str msg)])) ∧
    (∀ base_currency target_currency : String,
      (∃ rate, lookup_rate (pyLower base_currency) (pyLower target_currency) = some rate ∧
        get_exchange_rate base_currency target_currency =
          [("status", .str "success"), ("rate", .num rate)]) ∨
      (lookup_rate (pyLower base_currency) (pyLower target_currency) = none ∧
        ∃ msg, get_exchange_rate base_currency target_currency =
          [("status", .str "error"), ("error_message", .str msg)])) := by
  constructor
  · intro method
    cases h : ctxGet fee_database (pyLower method) with
    | some fee => exact Or.inl ⟨fee, rfl, by simp [get_fee_for_payment_method, h]⟩
    | none =>
      exact Or.inr ⟨rfl,
        "Payment method " ++ squote ++ method ++ squote ++ " not found",
        by simp [get_fee_for_payment_method, h]⟩
  · intro base_currency target_currency
    cases h : lookup_rate (pyLower base_currency) (pyLower target_currency) with
    | some rate => exact Or.inl ⟨rate, rfl, by simp [get_exchange_rate, h]⟩
    | none =>
      exact Or.inr ⟨rfl,
        "Unsupported currency pair: " ++ base_currency ++ "/" ++ target_currency,
        by simp [get_exchange_rate, h]⟩

/-- Claim C7: the retry/backoff configuration is constructed in-repo with
attempts=5, exp_base=7, initial_delay=1, http_status_codes=[429,500,503,504],
identically in both scripts, and every model constructed in the repository
receives exactly that configuration unchanged. -/
theorem claim_C7 :
    day2a_retry_config =
      { attempts := 5, exp_base := 7, initial_delay := 1,
        http_status_codes := [429, 500, 503, 504] } ∧
    day3a_retry_config = day2a_retry_config ∧
    currency_agent_model.retry_options = day2a_retry_config ∧
    calculation_agent_model.retry_options = day2a_retry_config ∧
    enhanced_currency_agent_model.retry_options = day2a_retry_config ∧
    day3a_chatbot_model.retry_options = day3a_retry_config :=
  ⟨rfl, rfl, rfl, rfl, rfl, rfl⟩

/-- Counterexample to claim C8 as stated: the two results are not equal for
the input "BITCOIN", because the error_message interpolates the original,
non-lowercased argument. -/
theorem claim_C8_counterexample :
    ¬(get_fee_for_payment_method "BITCOIN" =
      get_fee_for_payment_method (pyLower "BITCOIN")) := by
  decide

/-- Claim C8 (amended): the status field and the success payload
(fee_percentage / rate) of both tool functions are invariant under
lowercasing the string arguments; only the error_message text can differ,
since it interpolates the original-case argument. -/
theorem claim_C8_amended :
    (∀ method : String,
      ctxGet (get_fee_for_payment_method method) "status" =
        ctxGet (get_fee_for_payment_method (pyLower method)) "status" ∧
      ctxGet (get_fee_for_payment_method method) "fee_percentage" =
        ctxGet (get_fee_for_payment_method (pyLower method)) "fee_percentage") ∧
    (∀ base_currency target_currency : String,
      ctxGet (get_exchange_rate base_currency target_currency) "status" =
        ctxGet (get_exchange_rate (pyLower base_currency) (pyLower target_currency))
          "status" ∧
      ctxGet (get_exchange_rate base_currency target_currency) "rate" =
        ctxGet (get_exchange_rate (pyLower base_currency) (pyLower target_currency))
          "rate") := by
  constructor
  · intro method
    unfold get_fee_for_payment_method
    rw [pyLower_idem]
    cases ctxGet fee_database (pyLower method) <;> simp [ctxGet]
  · intro base_currency target_currency
    unfold get_exchange_rate
    rw [pyLower_idem, pyLower_idem]
    cases lookup_rate (pyLower base_currency) (pyLower target_currency) <;> simp [ctxGet]

/-- Claim C9: saving user info and then retrieving it on the resulting
session state round-trips the saved values through the "user:name" and
"user:country" state keys, for every prior state and every pair of strings. -/
theorem claim_C9 (state : Ctx) (user_name country : String) :
    (retrieve_userinfo (save_userinfo state user_name country).1).2 =
      [("status", .str "success"), ("user_name", .str user_name),
       ("country", .str country)] := by
  have hne : ("user:country" : String) ≠ "user:name" := by decide
  show (retrieve_userinfo
    (ctxSet (ctxSet state "user:name" (.str user_name)) "user:country"
      (.str country))).2 = _
  simp only [retrieve_userinfo]
  rw [ctxGet_ctxSet_ne _ _ hne, ctxGet_ctxSet_self, ctxGet_ctxSet_self]

/-- Claim C10: `retrieve_userinfo` never returns an error status: on every
session state it returns status "success", substitutes the placeholder
strings for absent keys, returns the stored values for present keys, and
leaves the session state unchanged. -/
theorem claim_C10 (state : Ctx) :
    (retrieve_userinfo state).1 = state ∧
    ctxGet (retrieve_userinfo state).2 "status" = some (.str "success") ∧
    (ctxGet state "user:name" = none →
      ctxGet (retrieve_userinfo state).2 "user_name" =
        some (.str "Username not found")) ∧
    (∀ v, ctxGet state "user:name" = some v →
      ctxGet (retrieve_userinfo state).2 "user_name" = some v) ∧
    (ctxGet state "user:country" = none →
      ctxGet (retrieve_userinfo state).2 "country" =
        some (.str "Country not found")) ∧
    (∀ v, ctxGet state "user:country" = some v →
      ctxGet (retrieve_userinfo state).2 "country" = some v) := by
  refine ⟨rfl, rfl, ?_, ?_, ?_, ?_⟩
  · intro h
    simp only [retrieve_userinfo, h]
    rfl
  · intro v h
    simp only [retrieve_userinfo, h]
    rfl
  · intro h
    simp only [retrieve_userinfo, h]
    rfl
  · intro v h
    simp only [retrieve_userinfo, h]
    rfl

/-- Closed witness for claim C10: the empty state yields both placeholders,
and a state holding Sam/Poland yields the stored values; the state component
is returned unchanged. -/
theorem claim_C10_witness :
    ((retrieve_userinfo []).1 = ([] : Ctx) ∧
     ctxGet (retrieve_userinfo []).2 "user_name" =
       some (.str "Username not found") ∧
     ctxGet (retrieve_userinfo []).2 "country" =
       some (.str "Country not found")) ∧
    (ctxGet (retrieve_userinfo
        [("user:name", PyVal.str "Sam"), ("user:country", PyVal.str "Poland")]).2
        "user_name" = some (.str "Sam") ∧
     ctxGet (retrieve_userinfo
        [("user:name", PyVal.str "Sam"), ("user:country", PyVal.str "Poland")]).2
        "country" = some (.str "Poland")) := by
  have h1 := claim_C10 []
  have h2 := claim_C10 [("user:name", PyVal.str "Sam"), ("user:country", PyVal.str "Poland")]
  exact ⟨⟨h1.1, h1.2.2.1 rfl, h1.2.2.2.2.1 rfl⟩,
    h2.2.2.2.1 _ rfl, h2.2.2.2.2.2 _ rfl⟩

theorem iterCtx_succ_shift (ws : List LoopWorker) (ctx : Ctx) (k : Nat) :
    iterCtx ws ctx (k + 1) = iterCtx ws (iterCtx ws ctx 1) k := by
  induction k with
  | zero => rfl
  | succ k ih =>
    show (runIterOnce ws (iterCtx ws ctx (k + 1))).1 = _
    rw [ih]
    rfl

theorem runLoopAux_exit (ws : List LoopWorker) :
    ∀ (k rem done : Nat) (ctx : Ctx), k < rem →
      (∀ j, j < k → (runIterOnce ws (iterCtx ws ctx j)).2 = false) →
      (runIterOnce ws (iterCtx ws ctx k)).2 = true →
      runLoopAux ws rem ctx done =
        ((runIterOnce ws (iterCtx ws ctx k)).1, .EXIT, done + k + 1) := by
  intro k
  induction k with
  | zero =>
    intro rem done ctx hk _ hexit
    cases rem with
    | zero => exact absurd hk (Nat.not_lt_zero 0)
    | succ rem =>
      simp only [iterCtx] at hexit ⊢
      simp [runLoopAux, hexit]
  | succ k ih =>
    intro rem done ctx hk hrun hexit
    cases rem with
    | zero => exact absurd hk (Nat.not_lt_zero (k + 1))
    | succ rem =>
      have h0 : (runIterOnce ws ctx).2 = false := by
        have := hrun 0 (Nat.succ_pos k)
        simpa [iterCtx] using this
      rw [iterCtx_succ_shift] at hexit ⊢
      have hrec := ih rem (done + 1) (iterCtx ws ctx 1)
        (Nat.lt_of_succ_lt_succ hk)
        (fun j hj => by
          rw [← iterCtx_succ_shift]
          exact hrun (j + 1) (Nat.succ_lt_succ hj))
        hexit
      simp only [runLoopAux, h0, Bool.false_eq_true, if_false]
      rw [show done + (k + 1) + 1 = done + 1 + k + 1 by omega]
      exact hrec

theorem runLoopAux_no_exit (ws : List LoopWorker) :
    ∀ (rem done : Nat) (ctx : Ctx),
      (∀ j, j < rem → (runIterOnce ws (iterCtx ws ctx j)).2 = false) →
      runLoopAux ws rem ctx done = (iterCtx ws ctx rem, .CAP_REACHED, done + rem) := by
  intro rem
  induction rem with
  | zero => intro done ctx _; simp [runLoopAux, iterCtx]
  | succ rem ih =>
    intro done ctx hrun
    have h0 : (runIterOnce ws ctx).2 = false := by
      have := hrun 0 (Nat.succ_pos rem)
      simpa [iterCtx] using this
    simp only [runLoopAux, h0, Bool.false_eq_true, if_false]
    have hrec := ih (done + 1) (iterCtx ws ctx 1)
      (fun j hj => by
        rw [← iterCtx_succ_shift]
        exact hrun (j + 1) (Nat.succ_lt_succ hj))
    rw [iterCtx_succ_shift ws ctx rem, show done + (rem + 1) = done + 1 + rem by omega]
    exact hrec

/-- Claim C3: in any Loop composition, if the first `k` iterations do not
signal exit and a worker of iteration `k` (0-based) raises the explicit exit
signal, the loop terminates at that very iteration in state EXIT having
performed exactly `k + 1` iterations, for every cap larger than `k`
(in the code, the exit signal is the refiner worker calling `exit_loop`). -/
theorem claim_C3 (ws : List LoopWorker) (cap : Nat) (ctx : Ctx) (k : Nat)
    (hk : k < cap)
    (hrun : ∀ j, j < k → (runIterOnce ws (iterCtx ws ctx j)).2 = false)
    (hexit : (runIterOnce ws (iterCtx ws ctx k)).2 = true) :
    runLoop ws cap ctx = ((runIterOnce ws (iterCtx ws ctx k)).1, .EXIT, k + 1) := by
  have h := runLoopAux_exit ws k cap 0 ctx hk hrun hexit
  simpa [runLoop] using h

/-- Claim C4: a Loop composition with cap `N` in which no iteration signals
exit performs exactly `N` iterations and terminates in state CAP_REACHED,
and that terminal state is reported as a normal successful outcome. -/
theorem claim_C4 (ws : List LoopWorker) (cap : Nat) (ctx : Ctx)
    (hrun : ∀ j, j < cap → (runIterOnce ws (iterCtx ws ctx j)).2 = false) :
    runLoop ws cap ctx = (iterCtx ws ctx cap, .CAP_REACHED, cap) ∧
    (runLoop ws cap ctx).2.1.terminatedSuccessfully = true := by
  have h := runLoopAux_no_exit ws cap 0 ctx hrun
  have h0 : runLoop ws cap ctx = (iterCtx ws ctx cap, .CAP_REACHED, cap) := by
    simpa [runLoop] using h
  exact ⟨h0, by rw [h0]; rfl⟩

/-- A concrete critic oracle for the loop witnesses: immediately approves the
story, as the CriticAgent instruction prescribes for a complete story. -/
def approving_critic_oracle : Ctx → PyVal × Bool :=
  fun _ => (.str "APPROVED", false)

/-- A concrete refiner oracle for the loop witnesses: calls `exit_loop`
exactly when the critique is APPROVED, as the RefinerAgent instruction
prescribes; the exit signal carries the `exit_loop` status value. -/
def exiting_refiner_oracle : Ctx → PyVal × Bool :=
  fun ctx =>
    if ctxGet ctx "critique" = some (.str "APPROVED") then
      (match ctxGet exit_loop "status" with
       | some v => v
       | none => .str "", true)
    else
      (.str "rewritten story", false)

/-- The StoryRefinementLoop body under the immediately-approving oracles. -/
def demo_loop_body : List LoopWorker :=
  story_refinement_loop approving_critic_oracle exiting_refiner_oracle

/-- Closed witness for claim C3: with the approving oracles the
StoryRefinementLoop (cap 2) exits in state EXIT after exactly one
iteration. -/
theorem claim_C3_witness :
    0 < story_refinement_loop_max_iterations ∧
    runLoop demo_loop_body story_refinement_loop_max_iterations [] =
      ((runIterOnce demo_loop_body (iterCtx demo_loop_body [] 0)).1, .EXIT, 1) :=
  ⟨Nat.zero_lt_succ 1,
   claim_C3 demo_loop_body story_refinement_loop_max_iterations [] 0
     (Nat.zero_lt_succ 1) (fun j hj => absurd hj (Nat.not_lt_zero j)) rfl⟩

/-- A critic oracle that always asks for changes, so the loop never exits. -/
def demanding_critic_oracle : Ctx → PyVal × Bool :=
  fun _ => (.str "Add more tension to the ending.", false)

/-- A refiner oracle that always rewrites and never calls `exit_loop`. -/
def rewriting_refiner_oracle : Ctx → PyVal × Bool :=
  fun _ => (.str "a rewritten story draft", false)

/-- The StoryRefinementLoop body under the never-approving oracles. -/
def demo_loop_body_no_exit : List LoopWorker :=
  story_refinement_loop demanding_critic_oracle rewriting_refiner_oracle

/-- Closed witness for claim C4: with the never-approving oracles the
StoryRefinementLoop (max_iterations=2) performs exactly 2 iterations and
ends in CAP_REACHED, a successful terminal state. -/
theorem claim_C4_witness :
    runLoop demo_loop_body_no_exit story_refinement_loop_max_iterations [] =
      (iterCtx demo_loop_body_no_exit [] story_refinement_loop_max_iterations,
       .CAP_REACHED, story_refinement_loop_max_iterations) ∧
    (runLoop demo_loop_body_no_exit story_refinement_loop_max_iterations
      []).2.1.terminatedSuccessfully = true :=
  claim_C4 demo_loop_body_no_exit story_refinement_loop_max_iterations []
    (fun j hj => by
      have h2 : j < 2 := hj
      interval_cases j <;> rfl)

theorem runSeq_append (l1 l2 : List Worker) (ctx : Ctx) :
    runSeq (l1 ++ l2) ctx = runSeq l2 (runSeq l1 ctx) := by
  induction l1 generalizing ctx with
  | nil => rfl
  | cons w l ih =>
    simp only [List.cons_append, runSeq]
    exact ih _

theorem seenCtx_succ (ws : List Worker) (ctx : Ctx) (j : Nat) (hj : j < ws.length) :
    seenCtx ws ctx (j + 1) =
      ctxSet (seenCtx ws ctx j) (ws.get ⟨j, hj⟩).output_key
        ((ws.get ⟨j, hj⟩).transform (seenCtx ws ctx j)) := by
  unfold seenCtx
  rw [List.take_succ, List.getElem?_eq_getElem hj, runSeq_append]
  rfl

theorem map_fst_runSeq :
    ∀ (ws : List Worker) (ctx : Ctx), (ws.map Worker.output_key).Nodup →
      (∀ k, k ∈ ws.map Worker.output_key → k ∉ ctx.map Prod.fst) →
      (runSeq ws ctx).map Prod.fst = ctx.map Prod.fst ++ ws.map Worker.output_key
  | [], ctx, _, _ => by simp [runSeq]
  | w :: l, ctx, hnd, hdisj => by
    simp only [List.map_cons, List.nodup_cons] at hnd
    have hw : w.output_key ∉ ctx.map Prod.fst := hdisj _ (by simp)
    have hset := ctxSet_eq_append hw (w.transform ctx)
    have hdisj2 : ∀ k, k ∈ l.map Worker.output_key →
        k ∉ (ctxSet ctx w.output_key (w.transform ctx)).map Prod.fst := by
      intro k hk
      rw [hset]
      simp only [List.map_append, List.mem_append, List.map_cons, List.map_nil,
        List.mem_singleton, not_or]
      refine ⟨hdisj k (by simp [hk]), ?_⟩
      intro he
      exact hnd.1 (he ▸ hk)
    simp only [runSeq]
    rw [map_fst_runSeq l _ hnd.2 hdisj2, hset]
    simp

theorem nodup_keys_get_ne :
    ∀ (ws : List Worker), (ws.map Worker.output_key).Nodup →
      ∀ (a b : Nat) (ha : a < ws.length) (hb : b < ws.length), a ≠ b →
      (ws.get ⟨a, ha⟩).output_key ≠ (ws.get ⟨b, hb⟩).output_key
  | [], _, a, _, ha, _, _ => absurd ha (Nat.not_lt_zero a)
  | w :: l, hnd, 0, 0, _, _, hab => absurd rfl hab
  | w :: l, hnd, 0, b + 1, ha, hb, _ => by
    simp only [List.map_cons, List.nodup_cons] at hnd
    intro he
    exact hnd.1 (he ▸ List.mem_map_of_mem Worker.output_key
      (List.get_mem l b (Nat.lt_of_succ_lt_succ hb)))
  | w :: l, hnd, a + 1, 0, ha, hb, _ => by
    simp only [List.map_cons, List.nodup_cons] at hnd
    intro he
    exact hnd.1 (he ▸ List.mem_map_of_mem Worker.output_key
      (List.get_mem l a (Nat.lt_of_succ_lt_succ ha)))
  | w :: l, hnd, a + 1, b + 1, ha, hb, hab => by
    simp only [List.map_cons, List.nodup_cons] at hnd
    exact nodup_keys_get_ne l hnd.2 a b (Nat.lt_of_succ_lt_succ ha)
      (Nat.lt_of_succ_lt_succ hb) (fun he => hab (by omega))

theorem seenCtx_visible (ws : List Worker) (hnd : (ws.map Worker.output_key).Nodup) :
    ∀ (i : Nat) (hi : i ≤ ws.length) (j : Nat) (hj : j < i),
      ctxGet (seenCtx ws [] i)
          ((ws.get ⟨j, Nat.lt_of_lt_of_le hj hi⟩).output_key) =
        some ((ws.get ⟨j, Nat.lt_of_lt_of_le hj hi⟩).transform
          (seenCtx ws [] j)) := by
  intro i
  induction i with
  | zero => intro _ j hj; exact absurd hj (Nat.not_lt_zero j)
  | succ i ih =>
    intro hi j hj
    have hilen : i < ws.length := Nat.lt_of_lt_of_le (Nat.lt_succ_self i) hi
    rw [seenCtx_succ ws [] i hilen]
    rcases Nat.lt_succ_iff_lt_or_eq.mp hj with hji | hji
    · have hne : (ws.get ⟨i, hilen⟩).output_key ≠
          (ws.get ⟨j, Nat.lt_of_lt_of_le hji (Nat.le_of_lt hilen)⟩).output_key :=
        nodup_keys_get_ne ws hnd i j hilen _ (fun he => by omega)
      rw [ctxGet_ctxSet_ne _ _ hne]
      exact ih (Nat.le_of_lt hi) j hji
    · subst hji
      rw [ctxGet_ctxSet_self]

/-- Claim C5: in a Sequential composition of workers W1..Wn started on the
empty context (in the code, the BlogPipeline of outline, writer and editor
agents chained via output_key), the context visible to worker Wi contains
exactly the outputs written by W1..W(i-1), under their output keys, in
execution order. -/
theorem claim_C5 (ws : List Worker) (i : Nat) (hi : i ≤ ws.length)
    (hnd : (ws.map Worker.output_key).Nodup) :
    (seenCtx ws [] i).map Prod.fst = (ws.take i).map Worker.output_key ∧
    ∀ (j : Nat) (hj : j < i),
      ctxGet (seenCtx ws [] i)
          ((ws.get ⟨j, Nat.lt_of_lt_of_le hj hi⟩).output_key) =
        some ((ws.get ⟨j, Nat.lt_of_lt_of_le hj hi⟩).transform (seenCtx ws [] j)) := by
  constructor
  · have hnd' : ((ws.take i).map Worker.output_key).Nodup := by
      rw [List.map_take]
      exact hnd.sublist ((ws.map Worker.output_key).take_sublist i)
    have h := map_fst_runSeq (ws.take i) [] hnd' (by simp)
    simpa [seenCtx] using h
  · exact seenCtx_visible ws hnd i hi

/-- The BlogPipeline with concrete constant oracles for the C5 witness. -/
def demo_blog_pipeline : List Worker :=
  blog_pipeline (fun _ => .str "an outline") (fun _ => .str "a draft")
    (fun _ => .str "a polished post")

/-- Closed witness for claim C5: in the BlogPipeline, the third worker
(EditorAgent, i = 2) sees exactly the outline and the draft, in execution
order. -/
theorem claim_C5_witness :
    (seenCtx demo_blog_pipeline [] 2).map Prod.fst = ["blog_outline", "blog_draft"] ∧
    ctxGet (seenCtx demo_blog_pipeline [] 2) "blog_outline" =
      some (.str "an outline") ∧
    ctxGet (seenCtx demo_blog_pipeline [] 2) "blog_draft" = some (.str "a draft") := by
  have h := claim_C5 demo_blog_pipeline 2 (by decide) (by decide)
  exact ⟨h.1, h.2 0 (by decide), h.2 1 (by decide)⟩

theorem namedOutputs_keys (ws : List Worker) (ctx : Ctx) :
    (namedOutputs ws ctx).map Prod.fst = ws.map Worker.output_key := by
  unfold namedOutputs
  rw [List.map_map]
  rfl

theorem ctxGet_namedOutputs (ctx : Ctx) :
    ∀ (ws : List Worker), (ws.map Worker.output_key).Nodup →
      ∀ w, w ∈ ws → ctxGet (namedOutputs ws ctx) w.output_key = some (w.transform ctx)
  | [], _, w, hw => absurd hw (List.not_mem_nil w)
  | u :: l, hnd, w, hw => by
    simp only [List.map_cons, List.nodup_cons] at hnd
    rcases List.mem_cons.mp hw with h | h
    · subst h
      simp [namedOutputs, ctxGet]
    · have hne : u.output_key ≠ w.output_key := fun he =>
        hnd.1 (he ▸ List.mem_map_of_mem Worker.output_key h)
      simp only [namedOutputs, List.map_cons, ctxGet]
      rw [if_neg hne]
      exact ctxGet_namedOutputs ctx l hnd.2 w h

/-- Claim C6: for every parallel composition, (i) with collision-free output
keys the merge succeeds and the merged context carries every worker's
individual output, computed on the shared input snapshot, and leaves all
other keys unchanged; (ii) erroring is invariant under permuting the
sibling workers and, on collision-free keys, the merged context is
independent (as a map) of the scheduling order; (iii) when two workers write
the same key, the composer returns ConfigurationError instead of silently
resolving the collision. -/
theorem claim_C6 :
    (∀ (ws : List Worker) (ctx : Ctx), (ws.map Worker.output_key).Nodup →
      runParallel ws ctx = .ok (parallelMerged ws ctx) ∧
      (∀ w, w ∈ ws →
        ctxGet (parallelMerged ws ctx) w.output_key = some (w.transform ctx)) ∧
      (∀ k, k ∉ ws.map Worker.output_key →
        ctxGet (parallelMerged ws ctx) k = ctxGet ctx k)) ∧
    (∀ (ws ws' : List Worker) (ctx : Ctx), ws.Perm ws' →
      (runParallel ws ctx = .error .ConfigurationError ↔
        runParallel ws' ctx = .error .ConfigurationError)) ∧
    (∀ (ws ws' : List Worker) (ctx : Ctx), ws.Perm ws' →
      (ws.map Worker.output_key).Nodup →
      ∀ k, ctxGet (parallelMerged ws ctx) k = ctxGet (parallelMerged ws' ctx) k) ∧
    (∀ (ws : List Worker) (ctx : Ctx), ¬(ws.map Worker.output_key).Nodup →
      runParallel ws ctx = .error .ConfigurationError) := by
  have hkeys : ∀ (ws : List Worker) (ctx : Ctx),
      (ws.map Worker.output_key).Nodup → ((namedOutputs ws ctx).map Prod.fst).Nodup := by
    intro ws ctx hnd
    rw [namedOutputs_keys]
    exact hnd
  refine ⟨?_, ?_, ?_, ?_⟩
  · intro ws ctx hnd
    refine ⟨by simp [runParallel, hnd], ?_, ?_⟩
    · intro w hw
      unfold parallelMerged
      rw [ctxGet_mergeOutputs _ _ (hkeys ws ctx hnd),
        ctxGet_namedOutputs ctx ws hnd w hw]
    · intro k hk
      unfold parallelMerged
      rw [ctxGet_mergeOutputs _ _ (hkeys ws ctx hnd),
        ctxGet_eq_none_of_not_mem (by rwa [namedOutputs_keys])]
  · intro ws ws' ctx hp
    have hiff : (ws.map Worker.output_key).Nodup ↔
        (ws'.map Worker.output_key).Nodup := (hp.map Worker.output_key).nodup_iff
    by_cases hnd : (ws.map Worker.output_key).Nodup
    · simp [runParallel, hnd, hiff.mp hnd]
    · have hnd2 : ¬(ws'.map Worker.output_key).Nodup := fun h => hnd (hiff.mpr h)
      simp [runParallel, hnd, hnd2]
  · intro ws ws' ctx hp hnd k
    have hnd' : (ws'.map Worker.output_key).Nodup :=
      ((hp.map Worker.output_key).nodup_iff).mp hnd
    have hpo : (namedOutputs ws ctx).Perm (namedOutputs ws' ctx) := by
      unfold namedOutputs
      exact hp.map _
    unfold parallelMerged
    rw [ctxGet_mergeOutputs _ _ (hkeys ws ctx hnd),
      ctxGet_mergeOutputs _ _ (hkeys ws' ctx hnd'),
      ctxGet_perm k hpo (hkeys ws ctx hnd)]
  · intro ws ctx hnd
    simp [runParallel, hnd]

/-- The spec's own collision example: WorkerA writes key "x". -/
def worker_A : Worker :=
  { name := "WorkerA", output_key := "x", transform := fun _ => .num 1 }

/-- The spec's own merge example: WorkerB writes key "y". -/
def worker_B : Worker :=
  { name := "WorkerB", output_key := "y", transform := fun _ => .num 2 }

/-- The spec's own collision example: WorkerC also writes key "x". -/
def worker_C : Worker :=
  { name := "WorkerC", output_key := "x", transform := fun _ => .num 2 }

/-- Closed witness for claim C6, instantiating the spec's examples: the
collision-free pair merges to x=1, y=2 independently of sibling order, and
the colliding pair WorkerA/WorkerC yields ConfigurationError. -/
theorem claim_C6_witness :
    (runParallel [worker_A, worker_B] [] =
      .ok (parallelMerged [worker_A, worker_B] []) ∧
     ctxGet (parallelMerged [worker_A, worker_B] []) "x" = some (.num 1) ∧
     ctxGet (parallelMerged [worker_A, worker_B] []) "y" = some (.num 2)) ∧
    ctxGet (parallelMerged [worker_A, worker_B] []) "x" =
      ctxGet (parallelMerged [worker_B, worker_A] []) "x" ∧
    runParallel [worker_A, worker_C] [] = .error .ConfigurationError := by
  have h1 := claim_C6.1 [worker_A, worker_B] [] (by decide)
  refine ⟨⟨h1.1, ?_, ?_⟩, ?_, ?_⟩
  · exact h1.2.1 worker_A (List.mem_cons_self _ _)
  · exact h1.2.1 worker_B (List.mem_cons_of_mem _ (List.mem_cons_self _ _))
  · exact claim_C6.2.2.1 [worker_A, worker_B] [worker_B, worker_A] []
      (List.Perm.swap worker_B worker_A []) (by decide) "x"
  · exact claim_C6.2.2.2 [worker_A, worker_C] [] (by decide)
